import Mathlib

/-!
Shallow embedding of `alienware_lights.py`, an RGB light controller for two
HID devices: a keyboard (feature reports, report id 0xCC) and the "Tron"
ring/logo controller (output reports, report id 0x03).

Byte payloads are modelled as `List Nat`; each Python `self._send(data)` call
contributes one payload to the trace of the enclosing method, so an effect
method denotes a `List (List Nat)` of command payloads in emission order.
The framing layer (`_send`) and the session/teardown state machine of `main`
are modelled separately, with observable side effects as an `Event` type.
-/

namespace AW

abbrev Color := Nat × Nat × Nat

/-- The three bytes `r, g, b` of a color, in the order the encoders emit them. -/
def rgbBytes (c : Color) : List Nat := [c.1, c.2.1, c.2.2]

/-- Python `range(start, stop, step)` for a positive step: the arithmetic
progression from `start` with `⌈(stop - start)/step⌉` terms (empty when
`stop ≤ start`, matching Python's truncating semantics on Nat). -/
def pyRange (start stop step : Nat) : List Nat :=
  List.range' start ((stop - start + step - 1) / step) step

/-- Observable side effects of the session layer: the keyboard's
`ioctl(HIDIOCSFEATURE(size), frame)`, the Tron `os.write(frame)`, timed
sleeps, the two `os.close` calls, and the keyboard's `_rebind` recovery. -/
inductive Event where
  | kbIoctl (size : Nat) (frame : List Nat)
  | tronWrite (frame : List Nat)
  | sleepMs (ms : Nat)
  | kbOsClose
  | tronOsClose
  | kbRebind
  deriving DecidableEq

namespace Keyboard

/-- `Keyboard._send`: `bytes([0xCC] + data + [0] * (64 - 1 - len(data)))`. -/
def frame (data : List Nat) : List Nat :=
  0xCC :: (data ++ List.replicate (64 - 1 - data.length) 0)

/-- `Keyboard._send` issues one `fcntl.ioctl(fd, HIDIOCSFEATURE(64), frame)`. -/
def sendEvents (data : List Nat) : List Event :=
  [Event.kbIoctl 64 (frame data)]

/-- `Keyboard._reset` payload. -/
def resetCmd : List Nat := [0x94]

/-- `Keyboard._commit` payload. -/
def commitCmd : List Nat := [0x8b, 0x01, 0xFF]

/-- `Keyboard._disable_effect` payload. -/
def disableEffectCmd : List Nat := [0x80, 0x01, 0xFE, 0x00, 0x00, 0x01, 0x01, 0x01]

/-- One chunk payload of `Keyboard._set_all_keys`: header `[0x8c, 0x02, 0x00]`
then `[k + 1, r, g, b]` for each key `k` in `range(i, min(i + 15, 0x88))`. -/
def chunkCmd (r g b i : Nat) : List Nat :=
  [0x8c, 0x02, 0x00] ++
    (pyRange i (min (i + 15) 0x88) 1).flatMap (fun k => [k + 1, r, g, b])

/-- `Keyboard._set_all_keys`: one chunk per `i in range(0, 0x88, 15)`,
then the commit-keys marker `[0x8c, 0x13]`. -/
def setAllKeysCmds (r g b : Nat) : List (List Nat) :=
  (pyRange 0 0x88 15).map (chunkCmd r g b) ++ [[0x8c, 0x13]]

/-- `Keyboard._global_effect`: header with effect type and tempo, the
`len(colors) - 1` byte, then the rgb bytes of every color. -/
def globalEffectCmd (effType tempo : Nat) (colors : List Color) : List Nat :=
  [0x80, effType, tempo, 0x00, 0x00, 0x01, 0x01, 0x01] ++
    [colors.length - 1] ++ colors.flatMap rgbBytes

/-- `Keyboard.static`: reset, disable effect, per-key chunks, commit. -/
def staticCmds (r g b : Nat) : List (List Nat) :=
  [resetCmd, disableEffectCmd] ++ setAllKeysCmds r g b ++ [commitCmd]

/-- `Keyboard.breathe`. -/
def breatheCmds (colors : List Color) : List (List Nat) :=
  [resetCmd, disableEffectCmd, globalEffectCmd 0x02 0x07 colors, commitCmd]

/-- The fixed rainbow triple used by `Keyboard.spectrum` and `Keyboard.wave`. -/
def rainbow : List Color := [(0xFF, 0, 0), (0, 0xFF, 0), (0, 0, 0xFF)]

/-- `Keyboard.spectrum`. -/
def spectrumCmds : List (List Nat) :=
  [resetCmd, disableEffectCmd, globalEffectCmd 0x02 0x05 rainbow, commitCmd]

/-- `Keyboard.wave`. -/
def waveCmds : List (List Nat) :=
  [resetCmd, disableEffectCmd, globalEffectCmd 0x03 0x05 rainbow, commitCmd]

/-- `Keyboard.pulse`. -/
def pulseCmds (r g b : Nat) : List (List Nat) :=
  [resetCmd, disableEffectCmd, globalEffectCmd 0x08 0x07 [(r, g, b)], commitCmd]

/-- `Keyboard.morph`. -/
def morphCmds (colors : List Color) : List (List Nat) :=
  [resetCmd, disableEffectCmd, globalEffectCmd 0x02 0x05 colors, commitCmd]

/-- `Keyboard.off`: delegates to `static(0, 0, 0)`. -/
def offCmds : List (List Nat) := staticCmds 0 0 0

end Keyboard

/-- The public keyboard effect methods, as one closed request type. -/
inductive KbEffect where
  | static (r g b : Nat)
  | breathe (colors : List Color)
  | spectrum
  | wave
  | pulse (r g b : Nat)
  | morph (colors : List Color)
  | off

/-- Dispatch a keyboard effect request to the method's payload trace. -/
def kbRun : KbEffect → List (List Nat)
  | .static r g b => Keyboard.staticCmds r g b
  | .breathe colors => Keyboard.breatheCmds colors
  | .spectrum => Keyboard.spectrumCmds
  | .wave => Keyboard.waveCmds
  | .pulse r g b => Keyboard.pulseCmds r g b
  | .morph colors => Keyboard.morphCmds colors
  | .off => Keyboard.offCmds

namespace Tron

/-- `Tron.RING_ZONES = list(range(10, 20))`. -/
def RING_ZONES : List Nat := pyRange 10 20 1

/-- `Tron.LOGO_ZONES`. -/
def LOGO_ZONES : List Nat := [0, 1]

/-- `Tron.POWER_STATES`. -/
def POWER_STATES : List Nat := [0x5b, 0x5c, 0x5d, 0x5e, 0x5f, 0x60]

/-- `Tron._send`: `bytes([0x03] + data + [0] * (33 - 1 - len(data)))`. -/
def frame (data : List Nat) : List Nat :=
  0x03 :: (data ++ List.replicate (33 - 1 - data.length) 0)

/-- `Tron._send` issues one `os.write(fd, frame)` then `time.sleep(0.02)`. -/
def sendEvents (data : List Nat) : List Event :=
  [Event.tronWrite (frame data), Event.sleepMs 20]

/-- `Tron._set_ring`: clear, start new, select zones, effect action, play. -/
def setRingCmds (actions zones : List Nat) : List (List Nat) :=
  [[0x21, 0x00, 0x04, 0x00, 0xFF],
   [0x21, 0x00, 0x01, 0x00, 0xFF],
   [0x23, 0x01, 0x00, zones.length] ++ zones,
   0x24 :: actions,
   [0x21, 0x00, 0x03, 0x00, 0xFF]]

/-- `Tron._set_logos`: commit any pending user animation, then for each power
state remove/start/select/action/save, then the final play. -/
def setLogosCmds (actions zones : List Nat) : List (List Nat) :=
  [[0x21, 0x00, 0x03, 0x00, 0xFF]] ++
    POWER_STATES.flatMap (fun state =>
      [[0x22, 0x00, 0x04, 0x00, state],
       [0x22, 0x00, 0x01, 0x00, state],
       [0x23, 0x01, 0x00, zones.length] ++ zones,
       0x24 :: actions,
       [0x22, 0x00, 0x02, 0x00, state]]) ++
    [[0x21, 0x00, 0x05, 0x00, 0xFF]]

/-- `Tron._static_action`. -/
def staticAction (r g b : Nat) : List Nat :=
  [0x00, 0x07, 0xD0, 0x00, 0xFA, r, g, b]

/-- `Tron._morph_actions`: one 8-byte block per color of `colors[:3]`. -/
def morphActions (colors : List Color) : List Nat :=
  (colors.take 3).flatMap (fun c => [0x02, 0x07, 0xCF, 0x00, 0x64] ++ rgbBytes c)

/-- `Tron._pulse_action`. -/
def pulseAction (r g b : Nat) : List Nat :=
  [0x01, 0x07, 0xDC, 0x00, 0x64, r, g, b]

/-- `Tron.static`, with the `zones=None` defaults resolved. -/
def staticCmds (r g b : Nat) (ring logos : Bool) : List (List Nat) :=
  (if ring then setRingCmds (staticAction r g b) RING_ZONES else []) ++
    (if logos then setLogosCmds (staticAction r g b) LOGO_ZONES else [])

/-- `Tron.breathe`. -/
def breatheCmds (colors : List Color) (ring logos : Bool) : List (List Nat) :=
  (if ring then setRingCmds (morphActions colors) RING_ZONES else []) ++
    (if logos then setLogosCmds (morphActions colors) LOGO_ZONES else [])

/-- `Tron.morph` delegates to `Tron.breathe`. -/
def morphCmds (colors : List Color) (ring logos : Bool) : List (List Nat) :=
  breatheCmds colors ring logos

/-- `Tron.spectrum` is `breathe` on the fixed rainbow triple. -/
def spectrumCmds (ring logos : Bool) : List (List Nat) :=
  breatheCmds [(0xFF, 0, 0), (0, 0xFF, 0), (0, 0, 0xFF)] ring logos

/-- `Tron.pulse`. -/
def pulseCmds (r g b : Nat) (ring logos : Bool) : List (List Nat) :=
  (if ring then setRingCmds (pulseAction r g b) RING_ZONES else []) ++
    (if logos then setLogosCmds (pulseAction r g b) LOGO_ZONES else [])

/-- `Tron.off`: delegates to `static(0, 0, 0, ring, logos)`. -/
def offCmds (ring logos : Bool) : List (List Nat) :=
  staticCmds 0 0 0 ring logos

end Tron

/-! ### Device locator (`find_hidraw`)

Paths and descriptor texts are modelled as `List Char`; the hidraw registry is
the multiset of paths `glob` returns together with the text that `open(path);
f.read()` yields for each. Python's `sorted` is a stable comparison sort on
the lexicographic string order, modelled by `List.insertionSort (· ≤ ·)`. -/

/-- `sub.isPrefixOf s` on character lists, written out explicitly. -/
def prefixOfChars : List Char → List Char → Bool
  | [], _ => true
  | _ :: _, [] => false
  | a :: as, b :: bs => a == b && prefixOfChars as bs

/-- Python's substring test `sub in s`. -/
def containsChars (sub : List Char) : List Char → Bool
  | [] => prefixOfChars sub []
  | c :: rest => prefixOfChars sub (c :: rest) || containsChars sub rest

/-- Auxiliary for splitting on a separator character, accumulator reversed. -/
def splitAux (sep : Char) : List Char → List Char → List (List Char)
  | [], acc => [acc.reverse]
  | c :: rest, acc =>
      if c = sep then acc.reverse :: splitAux sep rest []
      else splitAux sep rest (c :: acc)

/-- Python `s.split(sep)` for a one-character separator. -/
def splitOnChar (sep : Char) (s : List Char) : List (List Char) :=
  splitAux sep s []

/-- `"/dev/" + path.split("/")[4]`. -/
def devPathOf (path : List Char) : List Char :=
  "/dev/".data ++ ((splitOnChar '/' path).getD 4 [])

/-- The OS-exposed hidraw registry: the uevent paths `glob` enumerates, and
the descriptor text each path reads to. -/
structure Registry where
  paths : List (List Char)
  content : List Char → List Char

/-- The match test of `find_hidraw`: `vid in content and pid in content`. -/
def descMatches (content : List Char → List Char) (vid pid p : List Char) : Bool :=
  containsChars vid (content p) && containsChars pid (content p)

/-- `find_hidraw(vid, pid)`: walk the glob results in sorted order, return
the `/dev/...` path of the first record whose text contains both ids. -/
def find_hidraw (reg : Registry) (vid pid : List Char) : Option (List Char) :=
  ((List.insertionSort (· ≤ ·) reg.paths).find?
      (fun p => descMatches reg.content vid pid p)).map devPathOf

/-! ### Session close and `main`'s teardown

`fd : Option Nat` models `self.fd` (`None` or an open descriptor). The
dispatch body of `main` is abstracted by the event list it emitted before
completing or raising: the `finally` clause runs in either case and does not
depend on it. -/

namespace Keyboard

/-- `Keyboard.close`: close the fd when open, then always call `_rebind`. -/
def closeRun : Option Nat → Option Nat × List Event
  | some _ => (none, [Event.kbOsClose, Event.kbRebind])
  | none => (none, [Event.kbRebind])

end Keyboard

namespace Tron

/-- `Tron.close`: close the fd when open; nothing otherwise. -/
def closeRun : Option Nat → Option Nat × List Event
  | some _ => (none, [Event.tronOsClose])
  | none => (none, [])

end Tron

/-- One CLI invocation, after color parsing: the four target flags and
whether `find_hidraw` located each controller. -/
structure Invocation where
  flagKeyboard : Bool
  flagTron : Bool
  flagRing : Bool
  flagLogos : Bool
  kbPresent : Bool
  tronPresent : Bool

/-- The orchestrator's session state right before the `try` block. -/
structure ProgState where
  doKeyboard : Bool
  doRing : Bool
  doLogos : Bool
  kbdFd : Option Nat
  tronFd : Option Nat

/-- `Keyboard.open`: fails (returns false, fd stays None) when the device was
not found, otherwise opens a descriptor. -/
def kbOpen (present : Bool) : Bool × Option Nat :=
  if present then (true, some 0) else (false, none)

/-- `Tron.open`, same shape as `kbOpen`. -/
def tronOpen (present : Bool) : Bool × Option Nat :=
  if present then (true, some 1) else (false, none)

/-- The flag-resolution and open phase of `main`: default to all targets when
no flag is given, compute `do_ring_actual`/`do_logos_actual`, open only the
needed sessions, and drop a target whose open failed. -/
def openPhase (inv : Invocation) : ProgState :=
  let anyFlag := inv.flagKeyboard || inv.flagTron || inv.flagRing || inv.flagLogos
  let dk0 := if anyFlag then inv.flagKeyboard else true
  let dt0 := if anyFlag then inv.flagTron else true
  let dra0 := dt0 || inv.flagRing
  let dla0 := dt0 || inv.flagLogos
  let kb := if dk0 then kbOpen inv.kbPresent else (dk0, none)
  let tr := if dra0 || dla0 then tronOpen inv.tronPresent else (true, none)
  { doKeyboard := kb.1
    doRing := if dra0 || dla0 then (if tr.1 then dra0 else false) else dra0
    doLogos := if dra0 || dla0 then (if tr.1 then dla0 else false) else dla0
    kbdFd := kb.2
    tronFd := tr.2 }

/-- The `finally` clause of `main`: `if do_keyboard: kbd.close()` then an
unconditional `tron.close()`. -/
def teardown (st : ProgState) : ProgState × List Event :=
  let kb := if st.doKeyboard then Keyboard.closeRun st.kbdFd else (st.kbdFd, [])
  let tr := Tron.closeRun st.tronFd
  ({ st with kbdFd := kb.1, tronFd := tr.1 }, kb.2 ++ tr.2)

/-- `main` on a recognized command: open phase, the dispatch body (abstracted
by the events it emitted before completing or raising), then the `finally`
teardown, which runs in both cases. -/
def mainRun (inv : Invocation) (dispatch : List Event) : ProgState × List Event :=
  let st := openPhase inv
  let td := teardown st
  (td.1, dispatch ++ td.2)

/-! ### Concrete inputs used by the witness theorems -/

/-- Four concrete colors, one more than the ring/logo morph cap. -/
def colorsW4 : List Color := [(1, 2, 3), (4, 5, 6), (7, 8, 9), (10, 11, 12)]

/-- Nineteen concrete colors: the smallest count whose global-effect payload
overflows the keyboard's 64-byte frame. -/
def colorsW19 : List Color := List.replicate 19 (1, 2, 3)

/-- A concrete hidraw uevent path. -/
def pathW0 : List Char := "/sys/class/hidraw/h0/device/uevent".data

/-- A second concrete hidraw uevent path, lexicographically after `pathW0`. -/
def pathW1 : List Char := "/sys/class/hidraw/h1/device/uevent".data

/-- Concrete descriptor texts: only `pathW0` carries the keyboard ids. -/
def contentW : List Char → List Char :=
  fun p => if p = pathW0 then "HID_ID=0003:00000D62:0000BABC".data
    else "HID_ID=0003:0000187C:00000550".data

/-- A concrete registry listing the two paths in unsorted order. -/
def regW : Registry := ⟨[pathW1, pathW0], contentW⟩

/-- The same registry with its paths enumerated in the other order. -/
def regWswap : Registry := ⟨[pathW0, pathW1], contentW⟩

/-- A concrete invocation: keyboard targeted and present, Tron absent. -/
def invW : Invocation :=
  ⟨true, false, false, false, true, false⟩

/-! ### Helper lemmas -/

/-- Length of a `flatMap` whose blocks all have the same length `k`. -/
theorem length_flatMap_const {α : Type} (f : α → List Nat) (k : Nat)
    (hf : ∀ a, (f a).length = k) : ∀ l : List α, (l.flatMap f).length = k * l.length
  | [] => by simp
  | a :: l => by
      rw [List.flatMap_cons, List.length_append, hf, length_flatMap_const f k hf l,
        List.length_cons, Nat.mul_succ, Nat.add_comm]

/-- The global-effect payload always has `9 + 3·colorCount` bytes. -/
theorem globalEffectCmd_length (effType tempo : Nat) (colors : List Color) :
    (Keyboard.globalEffectCmd effType tempo colors).length = 9 + 3 * colors.length := by
  rw [Keyboard.globalEffectCmd]
  simp only [List.length_append, length_flatMap_const rgbBytes 3 (fun _ => rfl),
    List.length_cons, List.length_nil]

/-- `find?` on a `≤`-sorted list returns a `≤`-least match. -/
theorem find?_sorted_le {α : Type} [Preorder α] {p : α → Bool} {a : α} :
    ∀ {l : List α}, List.Sorted (fun x y : α => x ≤ y) l → l.find? p = some a →
      ∀ b ∈ l, p b = true → a ≤ b := by
  intro l
  induction l with
  | nil => intro _ hf; simp at hf
  | cons x xs ih =>
    intro hs hf b hb hpb
    rw [List.find?_cons] at hf
    cases hpx : p x with
    | false =>
      rw [hpx] at hf
      rcases List.mem_cons.mp hb with rfl | hbxs
      · rw [hpb] at hpx; cases hpx
      · exact ih (List.sorted_cons.mp hs).2 hf b hbxs hpb
    | true =>
      rw [hpx] at hf
      obtain rfl : x = a := Option.some.inj hf
      rcases List.mem_cons.mp hb with rfl | hbxs
      · exact le_refl b
      · exact (List.sorted_cons.mp hs).1 b hbxs

/-- Two path lists with the same elements sort to the same list. -/
theorem insertionSort_eq_of_perm {l₁ l₂ : List (List Char)} (h : l₁.Perm l₂) :
    List.insertionSort (· ≤ ·) l₁ = List.insertionSort (· ≤ ·) l₂ :=
  List.eq_of_perm_of_sorted
    (((List.perm_insertionSort _ l₁).trans h).trans (List.perm_insertionSort _ l₂).symm)
    (List.sorted_insertionSort _ l₁) (List.sorted_insertionSort _ l₂)

/-! ### Claim theorems -/

/-- C2: for every action byte list and every zone list, logo programming
emits the six power-state codes, in `POWER_STATES` order, as the state bytes
of its remove commands; each of the remove/start/select/action/save command
shapes occurs exactly six times; the trace has exactly `2 + 5·6` commands; and
the final play command `[0x21, 0x00, 0x05, 0x00, 0xFF]` occurs exactly once,
as the last command. -/
theorem tron_logo_six_groups (actions zones : List Nat) :
    Tron.POWER_STATES.length = 6 ∧
    ((Tron.setLogosCmds actions zones).filterMap fun c =>
        if c.take 4 = [0x22, 0x00, 0x04, 0x00] then (c.drop 4).head? else none)
      = Tron.POWER_STATES ∧
    ((Tron.setLogosCmds actions zones).countP fun c => c.take 3 = [0x22, 0x00, 0x04]) = 6 ∧
    ((Tron.setLogosCmds actions zones).countP fun c => c.take 3 = [0x22, 0x00, 0x01]) = 6 ∧
    ((Tron.setLogosCmds actions zones).countP fun c => c.take 3 = [0x23, 0x01, 0x00]) = 6 ∧
    ((Tron.setLogosCmds actions zones).countP fun c => c.head? = some 0x24) = 6 ∧
    ((Tron.setLogosCmds actions zones).countP fun c => c.take 3 = [0x22, 0x00, 0x02]) = 6 ∧
    (Tron.setLogosCmds actions zones).length = 2 + 5 * Tron.POWER_STATES.length ∧
    ((Tron.setLogosCmds actions zones).countP fun c => c = [0x21, 0x00, 0x05, 0x00, 0xFF]) = 1 ∧
    (Tron.setLogosCmds actions zones).getLast? = some [0x21, 0x00, 0x05, 0x00, 0xFF] := by
  refine ⟨rfl, ?_, ?_, ?_, ?_, ?_, ?_, ?_, ?_, ?_⟩ <;> rfl

set_option maxRecDepth 8000 in
/-- C3: static keyboard programming emits exactly `⌈0x88 / 15⌉ = 10` chunk
commands (the commands headed `[0x8c, 0x02]`), whose byte lengths are
`3 + 4·chunkSize` for the chunk sizes produced by `range(0, 0x88, 15)`; their
key data, concatenated, is `[k + 1, r, g, b]` for every source key index
`k < 0x88` in order (wire index = source index + 1); and the trace contains
exactly one commit-keys command `[0x8c, 0x13]` and exactly one final commit
command, in last position. -/
theorem kb_static_chunking (r g b : Nat) :
    ((Keyboard.staticCmds r g b).filter fun c => c.take 2 = [0x8c, 0x02]).length = 10 ∧
    (0x88 + 15 - 1) / 15 = 10 ∧
    (((Keyboard.staticCmds r g b).filter fun c => c.take 2 = [0x8c, 0x02]).map List.length)
      = (pyRange 0 0x88 15).map (fun i => 3 + 4 * (pyRange i (min (i + 15) 0x88) 1).length) ∧
    (((Keyboard.staticCmds r g b).filter fun c => c.take 2 = [0x8c, 0x02]).flatMap (List.drop 3))
      = (List.range 0x88).flatMap (fun k => [k + 1, r, g, b]) ∧
    ((Keyboard.staticCmds r g b).countP fun c => c = [0x8c, 0x13]) = 1 ∧
    ((Keyboard.staticCmds r g b).countP fun c => c = Keyboard.commitCmd) = 1 ∧
    (Keyboard.staticCmds r g b).getLast? = some Keyboard.commitCmd := by
  refine ⟨?_, ?_, ?_, ?_, ?_, ?_, ?_⟩ <;> rfl

/-- C5: every public keyboard effect method emits the reset command `[0x94]`
and then the disable-effect command as its first two payloads, before any
effect-specific payload, and its last payload is the commit command
`[0x8B, 0x01, 0xFF]`. -/
theorem kb_effect_reset_disable_commit (e : KbEffect) :
    Keyboard.resetCmd = [0x94] ∧
    Keyboard.disableEffectCmd = [0x80, 0x01, 0xFE, 0x00, 0x00, 0x01, 0x01, 0x01] ∧
    Keyboard.commitCmd = [0x8B, 0x01, 0xFF] ∧
    (kbRun e).take 2 = [Keyboard.resetCmd, Keyboard.disableEffectCmd] ∧
    (kbRun e).getLast? = some Keyboard.commitCmd := by
  refine ⟨rfl, rfl, rfl, ?_, ?_⟩ <;> cases e <;> rfl

/-- C4: with four or more colors, the ring/logo morph action only encodes the
first three colors (24 bytes, and unchanged by truncating the input to 3),
while the keyboard global-effect payload — the one `breathe` emits — carries
the byte `colorCount - 1` for the full input length at offset 8, followed by
the rgb bytes of every supplied color, so its length grows with every color. -/
theorem breathe_color_cap_asymmetry (colors : List Color) (h : 4 ≤ colors.length) :
    Tron.morphActions colors = Tron.morphActions (colors.take 3) ∧
    (Tron.morphActions colors).length = 24 ∧
    ((Keyboard.globalEffectCmd 0x02 0x07 colors).drop 8).head? = some (colors.length - 1) ∧
    (Keyboard.globalEffectCmd 0x02 0x07 colors).drop 9 = colors.flatMap rgbBytes ∧
    (Keyboard.globalEffectCmd 0x02 0x07 colors).length = 9 + 3 * colors.length ∧
    Keyboard.globalEffectCmd 0x02 0x07 colors ∈ Keyboard.breatheCmds colors := by
  refine ⟨?_, ?_, rfl, rfl, globalEffectCmd_length 0x02 0x07 colors, ?_⟩
  · simp [Tron.morphActions, List.take_take]
  · rw [Tron.morphActions,
      length_flatMap_const (fun c => [0x02, 0x07, 0xCF, 0x00, 0x64] ++ rgbBytes c) 8
        (fun _ => by simp [rgbBytes]), List.length_take]
    omega
  · simp [Keyboard.breatheCmds]

/-- Witness for C4 at four concrete colors. -/
theorem breathe_color_cap_asymmetry_witness :
    4 ≤ colorsW4.length ∧
    (Tron.morphActions colorsW4 = Tron.morphActions (colorsW4.take 3) ∧
      (Tron.morphActions colorsW4).length = 24 ∧
      ((Keyboard.globalEffectCmd 0x02 0x07 colorsW4).drop 8).head?
        = some (colorsW4.length - 1) ∧
      (Keyboard.globalEffectCmd 0x02 0x07 colorsW4).drop 9 = colorsW4.flatMap rgbBytes ∧
      (Keyboard.globalEffectCmd 0x02 0x07 colorsW4).length = 9 + 3 * colorsW4.length ∧
      Keyboard.globalEffectCmd 0x02 0x07 colorsW4 ∈ Keyboard.breatheCmds colorsW4) :=
  ⟨by decide, breathe_color_cap_asymmetry colorsW4 (by decide)⟩

/-- C6: for payloads within the documented bounds, the keyboard transport
frames `data` as report id `0xCC`, the payload, then zero padding — exactly
64 bytes handed to a set-feature control operation sized 64 — and the Tron
transport frames `data` as report id `0x03`, the payload, then zero padding —
exactly 33 bytes written as a plain output report followed by a 20 ms sleep. -/
theorem send_framing (d1 d2 : List Nat) (h1 : d1.length ≤ 63) (h2 : d2.length ≤ 32) :
    Keyboard.sendEvents d1
      = [Event.kbIoctl 64 (0xCC :: (d1 ++ List.replicate (63 - d1.length) 0))] ∧
    (Keyboard.frame d1).length = 64 ∧
    Tron.sendEvents d2
      = [Event.tronWrite (0x03 :: (d2 ++ List.replicate (32 - d2.length) 0)),
         Event.sleepMs 20] ∧
    (Tron.frame d2).length = 33 := by
  refine ⟨rfl, ?_, rfl, ?_⟩ <;> simp [Keyboard.frame, Tron.frame] <;> omega

/-- Witness for C6 at the reset payload and the ring-clear payload. -/
theorem send_framing_witness :
    ([0x94] : List Nat).length ≤ 63 ∧
    ([0x21, 0x00, 0x04, 0x00, 0xFF] : List Nat).length ≤ 32 ∧
    (Keyboard.sendEvents [0x94]
      = [Event.kbIoctl 64 (0xCC :: ([0x94] ++ List.replicate (63 - ([0x94] : List Nat).length) 0))] ∧
    (Keyboard.frame [0x94]).length = 64 ∧
    Tron.sendEvents [0x21, 0x00, 0x04, 0x00, 0xFF]
      = [Event.tronWrite (0x03 :: ([0x21, 0x00, 0x04, 0x00, 0xFF] ++
          List.replicate (32 - ([0x21, 0x00, 0x04, 0x00, 0xFF] : List Nat).length) 0)),
         Event.sleepMs 20] ∧
    (Tron.frame [0x21, 0x00, 0x04, 0x00, 0xFF]).length = 33) :=
  ⟨by decide, by decide,
    send_framing [0x94] [0x21, 0x00, 0x04, 0x00, 0xFF] (by decide) (by decide)⟩

/-- C9: the keyboard framing keeps every ≤ 63-byte payload at exactly 64
bytes, but it does not enforce that bound: a global effect with 19 or more
colors — reachable through the public `breathe` — has `9 + 3·colorCount ≥ 66`
bytes, its zero padding `[0] * (64 - 1 - len)` is empty, and the constructed
frame exceeds 64 bytes while the ioctl is still sized for 64. -/
theorem kb_framing_unenforced (colors : List Color) (h : 19 ≤ colors.length) :
    (∀ d : List Nat, d.length ≤ 63 → (Keyboard.frame d).length = 64) ∧
    (Keyboard.globalEffectCmd 0x02 0x07 colors).length = 9 + 3 * colors.length ∧
    64 - 1 - (Keyboard.globalEffectCmd 0x02 0x07 colors).length = 0 ∧
    (Keyboard.frame (Keyboard.globalEffectCmd 0x02 0x07 colors)).length
      = 10 + 3 * colors.length ∧
    64 < (Keyboard.frame (Keyboard.globalEffectCmd 0x02 0x07 colors)).length ∧
    Keyboard.globalEffectCmd 0x02 0x07 colors ∈ Keyboard.breatheCmds colors ∧
    Keyboard.sendEvents (Keyboard.globalEffectCmd 0x02 0x07 colors)
      = [Event.kbIoctl 64 (Keyboard.frame (Keyboard.globalEffectCmd 0x02 0x07 colors))] := by
  have hlen := globalEffectCmd_length 0x02 0x07 colors
  refine ⟨?_, hlen, ?_, ?_, ?_, ?_, rfl⟩
  · intro d hd
    simp [Keyboard.frame]
    omega
  · omega
  · simp [Keyboard.frame, hlen]
    omega
  · simp [Keyboard.frame, hlen]
    omega
  · simp [Keyboard.breatheCmds]

/-- Witness for C9 at nineteen concrete colors. -/
theorem kb_framing_unenforced_witness :
    19 ≤ colorsW19.length ∧
    ((∀ d : List Nat, d.length ≤ 63 → (Keyboard.frame d).length = 64) ∧
    (Keyboard.globalEffectCmd 0x02 0x07 colorsW19).length = 9 + 3 * colorsW19.length ∧
    64 - 1 - (Keyboard.globalEffectCmd 0x02 0x07 colorsW19).length = 0 ∧
    (Keyboard.frame (Keyboard.globalEffectCmd 0x02 0x07 colorsW19)).length
      = 10 + 3 * colorsW19.length ∧
    64 < (Keyboard.frame (Keyboard.globalEffectCmd 0x02 0x07 colorsW19)).length ∧
    Keyboard.globalEffectCmd 0x02 0x07 colorsW19 ∈ Keyboard.breatheCmds colorsW19 ∧
    Keyboard.sendEvents (Keyboard.globalEffectCmd 0x02 0x07 colorsW19)
      = [Event.kbIoctl 64 (Keyboard.frame (Keyboard.globalEffectCmd 0x02 0x07 colorsW19))]) :=
  ⟨by decide, kb_framing_unenforced colorsW19 (by decide)⟩

/-- C8: for both controllers, `off` emits exactly the command sequence of
`static` with color `(0, 0, 0)` on the same targets. -/
theorem off_is_static_black (ring logos : Bool) :
    Keyboard.offCmds = Keyboard.staticCmds 0 0 0 ∧
    Tron.offCmds ring logos = Tron.staticCmds 0 0 0 ring logos ∧
    kbRun KbEffect.off = kbRun (KbEffect.static 0 0 0) :=
  ⟨rfl, rfl, rfl⟩

/-- C1: for every invocation and every dispatch outcome (the `finally` clause
sees only the pre-`try` state), both session fds are `none` after `mainRun`;
whenever the keyboard was kept as a target its teardown contains the rebind
attempt; `Keyboard.close` attempts the rebind from every fd state, even when
nothing was ever sent; and `Tron.close` is a plain handle close — it emits
nothing but the os-close, never a rebind. -/
theorem main_closes_both_sessions (inv : Invocation) (dispatch : List Event)
    (fd : Option Nat) :
    (mainRun inv dispatch).1.kbdFd = none ∧
    (mainRun inv dispatch).1.tronFd = none ∧
    ((openPhase inv).doKeyboard = true → Event.kbRebind ∈ (teardown (openPhase inv)).2) ∧
    Event.kbRebind ∈ (Keyboard.closeRun fd).2 ∧
    (∀ e ∈ (Tron.closeRun fd).2, e = Event.tronOsClose) ∧
    Event.kbRebind ∉ (Tron.closeRun fd).2 := by
  obtain ⟨fk, ft, fr, fl, kp, tp⟩ := inv
  refine ⟨?_, ?_, ?_, ?_, ?_, ?_⟩
  · cases fk <;> cases ft <;> cases fr <;> cases fl <;> cases kp <;> cases tp <;> rfl
  · cases fk <;> cases ft <;> cases fr <;> cases fl <;> cases kp <;> cases tp <;> rfl
  · cases fk <;> cases ft <;> cases fr <;> cases fl <;> cases kp <;> cases tp <;> decide
  · cases fd <;> simp [Keyboard.closeRun]
  · cases fd <;> simp [Tron.closeRun]
  · cases fd <;> simp [Tron.closeRun]

/-- Witness for C1 at a concrete invocation, empty dispatch, an open fd. -/
theorem main_closes_both_sessions_witness :
    (mainRun invW []).1.kbdFd = none ∧
    (mainRun invW []).1.tronFd = none ∧
    ((openPhase invW).doKeyboard = true → Event.kbRebind ∈ (teardown (openPhase invW)).2) ∧
    Event.kbRebind ∈ (Keyboard.closeRun (some 5)).2 ∧
    (∀ e ∈ (Tron.closeRun (some 5)).2, e = Event.tronOsClose) ∧
    Event.kbRebind ∉ (Tron.closeRun (some 5)).2 :=
  main_closes_both_sessions invW [] (some 5)

/-- C10: closing the Tron session with no open fd is a total no-op — final
state `none`, no events, so nothing can raise — and closing twice is too; the
orchestrator's teardown still runs `Tron.close` unconditionally, so when the
controller was never targeted or its open failed (fd `none`) the teardown
trace is exactly the keyboard part and the final Tron fd is `none`. -/
theorem tron_close_unconditional_noop (inv : Invocation) (dispatch : List Event)
    (h : (openPhase inv).tronFd = none) :
    Tron.closeRun none = (none, []) ∧
    (∀ fd, Tron.closeRun (Tron.closeRun fd).1 = (none, [])) ∧
    (mainRun inv dispatch).1.tronFd = none ∧
    (teardown (openPhase inv)).2
      = (if (openPhase inv).doKeyboard then (Keyboard.closeRun (openPhase inv).kbdFd).2
         else []) := by
  refine ⟨rfl, fun fd => by cases fd <;> rfl, ?_, ?_⟩
  · simp [mainRun, teardown, h, Tron.closeRun]
  · cases hdk : (openPhase inv).doKeyboard <;> simp [teardown, h, hdk, Tron.closeRun]

/-- Witness for C10: keyboard-only invocation with the Tron absent. -/
theorem tron_close_unconditional_noop_witness :
    (openPhase invW).tronFd = none ∧
    (Tron.closeRun none = (none, []) ∧
    (∀ fd, Tron.closeRun (Tron.closeRun fd).1 = (none, [])) ∧
    (mainRun invW []).1.tronFd = none ∧
    (teardown (openPhase invW)).2
      = (if (openPhase invW).doKeyboard then (Keyboard.closeRun (openPhase invW).kbdFd).2
         else [])) :=
  ⟨rfl, tron_close_unconditional_noop invW [] rfl⟩

/-- C7: device lookup is invariant under re-enumeration order of the registry
(same records, same contents), it returns `none` exactly when no descriptor
text contains both identifier strings, and any returned device path is
derived (`/dev/` + 5th path component) from a matching record whose path is
lexicographically least among all matching records. -/
theorem find_hidraw_first_sorted_match (reg reg' : Registry) (vid pid : List Char)
    (hperm : reg.paths.Perm reg'.paths) (hcont : reg.content = reg'.content) :
    find_hidraw reg vid pid = find_hidraw reg' vid pid ∧
    (find_hidraw reg vid pid = none ↔
      ∀ p ∈ reg.paths, descMatches reg.content vid pid p = false) ∧
    (∀ d, find_hidraw reg vid pid = some d →
      ∃ p ∈ reg.paths, descMatches reg.content vid pid p = true ∧ d = devPathOf p ∧
        ∀ q ∈ reg.paths, descMatches reg.content vid pid q = true → p ≤ q) := by
  refine ⟨?_, ?_, ?_⟩
  · rw [find_hidraw, find_hidraw, insertionSort_eq_of_perm hperm, hcont]
  · rw [find_hidraw, Option.map_eq_none', List.find?_eq_none]
    constructor
    · intro h p hp
      have hmem : p ∈ List.insertionSort (· ≤ ·) reg.paths :=
        (List.perm_insertionSort _ _).mem_iff.mpr hp
      simpa using h p hmem
    · intro h p hp
      have hmem : p ∈ reg.paths := (List.perm_insertionSort _ _).mem_iff.mp hp
      simp [h p hmem]
  · intro d hd
    rw [find_hidraw] at hd
    obtain ⟨a, ha, hda⟩ := Option.map_eq_some'.mp hd
    refine ⟨a, ?_, List.find?_some ha, hda.symm, ?_⟩
    · exact (List.perm_insertionSort _ _).mem_iff.mp (List.mem_of_find?_eq_some ha)
    · intro q hq hpq
      exact find?_sorted_le (List.sorted_insertionSort _ _) ha q
        ((List.perm_insertionSort _ _).mem_iff.mpr hq) hpq

/-- Witness for C7: the two-record registry in both enumeration orders. -/
theorem find_hidraw_first_sorted_match_witness :
    regW.paths.Perm regWswap.paths ∧ regW.content = regWswap.content ∧
    (find_hidraw regW "0D62".data "BABC".data
        = find_hidraw regWswap "0D62".data "BABC".data ∧
    (find_hidraw regW "0D62".data "BABC".data = none ↔
      ∀ p ∈ regW.paths, descMatches regW.content "0D62".data "BABC".data p = false) ∧
    (∀ d, find_hidraw regW "0D62".data "BABC".data = some d →
      ∃ p ∈ regW.paths, descMatches regW.content "0D62".data "BABC".data p = true ∧
        d = devPathOf p ∧
        ∀ q ∈ regW.paths,
          descMatches regW.content "0D62".data "BABC".data q = true → p ≤ q)) :=
  ⟨List.Perm.swap pathW0 pathW1 [], rfl,
    find_hidraw_first_sorted_match regW regWswap "0D62".data "BABC".data
      (List.Perm.swap pathW0 pathW1 []) rfl⟩

end AW
